import Mathlib

set_option maxRecDepth 100000

/-!
Verification of the core steganography engine of this repository
(steganography_engine.py, class SteganographyEngine).

Shallow embedding conventions:
* a decoded image is its flattened sample buffer, a List Nat of 8-bit
  samples (numpy img_array.flatten()); file decoding, RGB normalization
  and PNG encoding are outside the pure core modelled here;
* bytes objects are List Nat with entries < 256;
* zlib.compress is an external collaborator and is modelled as a
  parameter compress : List Nat -> Option (List Nat); a none result
  models the exception branch of the try/except around zlib.compress,
  and zlib.decompress likewise as decompress (none = exception);
* functions returning (success, message) / (data, message) pairs are
  modelled as Except String, the error carrying the code's message
  string (informational elapsed-time text of success messages dropped);
* Python floor division on possibly negative ints is Int.fdiv.
-/

/-- One byte to its 8 bits most-significant-first:
transcribes _bytes_to_bits' inner loop for i in range(7, -1, -1). -/
def byteToBits (b : Nat) : List Nat :=
  [(b >>> 7) &&& 1, (b >>> 6) &&& 1, (b >>> 5) &&& 1, (b >>> 4) &&& 1,
   (b >>> 3) &&& 1, (b >>> 2) &&& 1, (b >>> 1) &&& 1, (b >>> 0) &&& 1]

/-- SteganographyEngine._bytes_to_bits. -/
def bytesToBits : List Nat → List Nat
  | [] => []
  | b :: rest => byteToBits b ++ bytesToBits rest

/-- The while-loop of _bits_to_bytes: right-pad with zero bits to a
multiple of 8. -/
def padBits (bits : List Nat) : List Nat :=
  bits ++ List.replicate ((8 - bits.length % 8) % 8) 0

/-- The groups visited by for i in range(0, len(bits), 8). Structural so
that the kernel can evaluate it; _bits_to_bytes only applies it to
padded input, where every group has exactly 8 bits, but a final short
group is kept as-is to mirror the guarded index i + j < len(bits). -/
def chunks8 : List Nat → List (List Nat)
  | [] => []
  | b0 :: b1 :: b2 :: b3 :: b4 :: b5 :: b6 :: b7 :: rest =>
      [b0, b1, b2, b3, b4, b5, b6, b7] :: chunks8 rest
  | l => [l]

/-- The inner loop of _bits_to_bytes: byte = (byte << 1) | bit over one
group. -/
def packByte (group : List Nat) : Nat :=
  group.foldl (fun acc b => (acc <<< 1) ||| b) 0

/-- SteganographyEngine._bits_to_bytes. -/
def bitsToBytes (bits : List Nat) : List Nat :=
  if bits = [] then [] else (chunks8 (padBits bits)).map packByte

/-- flat_array[pixel_idx] & ~(1 << bit_pos): clear bit bit_pos, written
for Nat as a conditional subtraction (int32 two's-complement masking of
a nonnegative sample clears exactly that bit). -/
def clearSlot (v p : Nat) : Nat :=
  if v.testBit p then v - (1 <<< p) else v

/-- Clear the slot then OR in the new bit:
flat[p] = (flat[p] & ~(1 << pos)) | (bit << pos). -/
def writeSlot (v pos bit : Nat) : Nat :=
  clearSlot v pos ||| (bit <<< pos)

/-- One iteration of the embed loop of _embed_bits_safe, acting on the
state (flat samples, bit_idx). The early break fires exactly when
bit_idx >= total_bits, after which every later iteration is a no-op,
so it is modelled by the leading guard. -/
def embedStep (bpp total : Nat) (bits : List Nat) (st : List Nat × Nat)
    (i : Nat) : List Nat × Nat :=
  if total ≤ st.2 then st
  else
    let pixelIdx := i / bpp
    let bitPos := i % bpp
    if pixelIdx < st.1.length then
      let bitValue := bits.getD st.2 0
      let flat := st.1.set pixelIdx (writeSlot (st.1.getD pixelIdx 0) bitPos bitValue)
      (flat, if bitPos = bpp - 1 then st.2 + 1 else st.2)
    else st

/-- SteganographyEngine._embed_bits_safe: loop over
range(0, min(len(flat) * bpp, total_bits * bpp)) followed by
np.clip(flat_array, 0, 255) (the lower clip is vacuous on Nat). -/
def embedBitsSafe (flat : List Nat) (dataBits : List Nat) (bpp : Nat) :
    List Nat :=
  let total := dataBits.length
  let stop := min (flat.length * bpp) (total * bpp)
  let res := (List.range stop).foldl (embedStep bpp total dataBits) (flat, 0)
  res.1.map (fun v => min v 255)

/-- The capacity dictionary returned by calculate_capacity (the fields
computed from the decoded buffer; image_mode / image_size metadata is
outside the pure core). -/
structure CapacityReport where
  pixels : Nat
  channels : Nat
  bits_per_pixel : Nat
  available_bytes : Nat
  available_bits : Int
  header_bits : Nat
deriving Repr, DecidableEq

/-- SteganographyEngine.calculate_capacity on a decoded buffer:
total_pixels = img_array.size (all samples, channels included),
available_bits = total_pixels * bits_per_pixel - 40 (a Python int,
possibly negative), available_bytes = max(0, available_bits // 8). -/
def calculate_capacity (flat : List Nat) (channels : Nat) (bpp : Nat) :
    CapacityReport :=
  { pixels := flat.length
    channels := channels
    bits_per_pixel := bpp
    available_bytes := (((flat.length * bpp : Int) - 40).fdiv 8).toNat
    available_bits := (flat.length * bpp : Int) - 40
    header_bits := 40 }

/-- struct.pack of the big-endian unsigned 4-byte length. -/
def toBE4 (n : Nat) : List Nat :=
  [n / 2 ^ 24 % 256, n / 2 ^ 16 % 256, n / 2 ^ 8 % 256, n % 256]

/-- struct.unpack of a big-endian unsigned 4-byte length from the first
four bytes. -/
def beDecode32 (bs : List Nat) : Nat :=
  bs.getD 0 0 * 2 ^ 24 + bs.getD 1 0 * 2 ^ 16 + bs.getD 2 0 * 2 ^ 8 + bs.getD 3 0

/-- Lines 109-122 of embed_data: optional compression of the secret
bytes, returning (body, compression_flag). zlib.compress is the
compress parameter; none models its exception branch. -/
def compressionStage (compress : List Nat → Option (List Nat))
    (useCompression : Bool) (secret : List Nat) : List Nat × Nat :=
  if useCompression = true ∧ 100 < secret.length then
    match compress secret with
    | some c => if c.length < secret.length then (c, 1) else (secret, 0)
    | none => (secret, 0)
  else (secret, 0)

/-- Lines 124-129 of embed_data: header = struct.pack of
(data_length, metadata) with metadata = (flag << 7) | (bpp & 0x07),
then data_to_hide = header + secret_data. -/
def dataToHide (body : List Nat) (flag bpp : Nat) : List Nat :=
  toBE4 body.length ++ [(flag <<< 7) ||| (bpp &&& 7)] ++ body

/-- SteganographyEngine.embed_data on a decoded flat buffer. The
bits_per_pixel validation, compression stage, frame build, capacity
check against calculate_capacity (the decoded image has 3 channels
after RGB normalization; the channel count does not enter the
arithmetic) and the embedding pass with final clip. struct.pack raises
for a length not fitting 4 bytes; the outer except turns that into an
error result. -/
def embed_data (compress : List Nat → Option (List Nat))
    (flat : List Nat) (secret : List Nat) (bpp : Nat)
    (useCompression : Bool) : Except String (List Nat) :=
  if ¬ (bpp = 1 ∨ bpp = 2 ∨ bpp = 3) then
    Except.error "Bits per pixel must be 1, 2, or 3"
  else
    let body := (compressionStage compress useCompression secret).1
    let flag := (compressionStage compress useCompression secret).2
    if body.length < 2 ^ 32 then
      if ((bytesToBits (dataToHide body flag bpp)).length : Int) >
          (calculate_capacity flat 3 bpp).available_bits then
        Except.error ("Data too large. Available: " ++
          toString (calculate_capacity flat 3 bpp).available_bytes ++
          "B, Required: " ++ toString (dataToHide body flag bpp).length ++ "B")
      else
        Except.ok
          ((embedBitsSafe flat (bytesToBits (dataToHide body flag bpp)) bpp).map
            (fun v => min v 255))
    else Except.error "Embedding failed: length does not fit in 4 bytes"

/-- Lines 185-191 of extract_data: the 40 header bits, read as
flat_array[i] & 1 for i in range(40) (extract_data first checks that
the buffer has at least 40 samples). -/
def lsb40 (flat : List Nat) : List Nat :=
  (List.range 40).map (fun i => flat.getD i 0 &&& 1)

/-- The five header bytes recovered from the stego buffer. -/
def headerBytesOf (flat : List Nat) : List Nat :=
  bitsToBytes (lsb40 flat)

/-- data_length decoded from the header. -/
def headerLenOf (flat : List Nat) : Nat :=
  beDecode32 (headerBytesOf flat)

/-- The metadata byte header_bytes[4]. -/
def metadataOf (flat : List Nat) : Nat :=
  (headerBytesOf flat).getD 4 0

/-- compression_flag = (metadata >> 7) & 1. -/
def flagOf (flat : List Nat) : Nat :=
  (metadataOf flat >>> 7) &&& 1

/-- bits_per_pixel = metadata & 0x07, silently replaced by 1 when not
in [1, 2, 3]. -/
def headerBppOf (flat : List Nat) : Nat :=
  if metadataOf flat &&& 7 = 1 ∨ metadataOf flat &&& 7 = 2 ∨
      metadataOf flat &&& 7 = 3 then
    metadataOf flat &&& 7
  else 1

/-- Lines 217-224 of extract_data: body bits collected by
for i in range(40, stop) with pixel_idx = i // bpp, bit_pos = i % bpp,
appending (flat[pixel_idx] >> bit_pos) & 1 only when
pixel_idx < len(flat). -/
def bodyBits (flat : List Nat) (bpp stop : Nat) : List Nat :=
  (List.range' 40 (stop - 40)).filterMap (fun i =>
    if i / bpp < flat.length then
      some ((flat.getD (i / bpp) 0 >>> (i % bpp)) &&& 1)
    else none)

/-- SteganographyEngine.extract_data on a decoded flat buffer. Note the
function takes no bits-per-pixel argument: the body addressing uses the
value stored in the header (with its fallback to 1). -/
def extract_data (decompress : List Nat → Option (List Nat))
    (flat : List Nat) : Except String (List Nat) :=
  if flat.length < 40 then
    Except.error "Image too small to contain valid data"
  else if (headerBytesOf flat).length < 5 then
    Except.error "Invalid stego image: Header corrupted"
  else if headerLenOf flat > 10000000 then
    Except.error "Invalid data length in header"
  else if 40 + headerLenOf flat * 8 > flat.length * headerBppOf flat then
    Except.error ("Image too small: Need " ++
      toString (40 + headerLenOf flat * 8) ++ " bits, only " ++
      toString (flat.length * headerBppOf flat) ++ " available")
  else if flagOf flat = 1 then
    match decompress ((bitsToBytes (bodyBits flat (headerBppOf flat)
        (min (40 + headerLenOf flat * 8) (flat.length * headerBppOf flat)))).take
        (headerLenOf flat)) with
    | some d => Except.ok d
    | none => Except.error "Decompression failed"
  else
    Except.ok ((bitsToBytes (bodyBits flat (headerBppOf flat)
      (min (40 + headerLenOf flat * 8) (flat.length * headerBppOf flat)))).take
      (headerLenOf flat))

/-! ## Supporting lemmas -/

theorem packByte_byteToBits : ∀ b : Nat, b < 256 → packByte (byteToBits b) = b := by
  decide

theorem bytesToBits_length (x : List Nat) :
    (bytesToBits x).length = 8 * x.length := by
  induction x with
  | nil => rfl
  | cons b rest ih =>
    show (byteToBits b ++ bytesToBits rest).length = 8 * (rest.length + 1)
    rw [List.length_append, ih]
    show 8 + 8 * rest.length = 8 * (rest.length + 1)
    omega

theorem padBits_of_mod8 (bits : List Nat) (h : bits.length % 8 = 0) :
    padBits bits = bits := by
  unfold padBits
  rw [h]
  simp

theorem chunksPack (x : List Nat) (h : ∀ b ∈ x, b < 256) :
    (chunks8 (bytesToBits x)).map packByte = x := by
  induction x with
  | nil => rfl
  | cons b rest ih =>
    have hb : b < 256 := h b (List.mem_cons_self b rest)
    have hrest : ∀ y ∈ rest, y < 256 := fun y hy => h y (List.mem_cons_of_mem b hy)
    show (chunks8 (byteToBits b ++ bytesToBits rest)).map packByte = b :: rest
    have hsplit : chunks8 (byteToBits b ++ bytesToBits rest)
        = byteToBits b :: chunks8 (bytesToBits rest) := rfl
    rw [hsplit, List.map_cons, packByte_byteToBits b hb, ih hrest]

theorem bytesToBits_cons_ne_nil (b : Nat) (rest : List Nat) :
    ¬ bytesToBits (b :: rest) = [] := by
  show ¬ byteToBits b ++ bytesToBits rest = []
  simp [byteToBits]

/-! ## Claims -/

/-- Claim C8: for every byte sequence x (entries below 256), including
the empty sequence, bitsToBytes after bytesToBits returns x: the
MSB-first bit expansion is inverted by the zero-padding MSB-first
packer of the source. -/
theorem c8_bit_roundtrip (x : List Nat) (h : ∀ b ∈ x, b < 256) :
    bitsToBytes (bytesToBits x) = x := by
  cases x with
  | nil => rfl
  | cons b rest =>
    unfold bitsToBytes
    rw [if_neg (bytesToBits_cons_ne_nil b rest),
      padBits_of_mod8 _ (by rw [bytesToBits_length]; omega),
      chunksPack _ h]

/-- Witness for C8 at the concrete byte sequence [0, 255, 3]. -/
theorem c8_bit_roundtrip_witness :
    (∀ b ∈ [0, 255, 3], b < 256) ∧ bitsToBytes (bytesToBits [0, 255, 3]) = [0, 255, 3] :=
  ⟨by decide, c8_bit_roundtrip [0, 255, 3] (by decide)⟩

/-- Claim C2 (code bug): the claim says frame bit i lands in sample
i / bpp at slot i mod bpp, so embedding the bits [1, 0] at
bitsPerPixel 2 into the two-sample buffer [0, 0] should give sample 0
the two distinct bits 1 (slot 0) and 0 (slot 1), i.e. produce [1, 0].
The code advances bit_idx only when bit_pos = bits_per_pixel - 1, so it
writes frame bit (i / bpp) - one bit replicated into every slot of one
sample - and produces [3, 0]. -/
theorem c2_embed_addressing_bug :
    embedBitsSafe [0, 0] [1, 0] 2 = [3, 0] ∧ embedBitsSafe [0, 0] [1, 0] 2 ≠ [1, 0] :=
  ⟨rfl, by decide⟩

/-- Claim C6 (code bug): with frame bits [0, 0] at bitsPerPixel 2 the
frame's required range per the claim is ceil(2 / 2) = 1 sample, so
sample index 1 of [255, 255, 255] should be untouched; the code writes
frame bit j into sample j for every j below len(frameBits) and changes
sample 1 from 255 to 252. -/
theorem c6_untouched_range_bug :
    embedBitsSafe [255, 255, 255] [0, 0] 2 = [252, 252, 255] ∧
      (embedBitsSafe [255, 255, 255] [0, 0] 2).getD 1 0 ≠ 255 :=
  ⟨rfl, by decide⟩

/-- Claim C1 (code bug): a 60-sample zero cover at bitsPerPixel 2 has
available_bytes = 10, so the 1-byte payload [255] is within capacity
and the claim promises an exact round trip. Embedding succeeds, but
extraction returns [0]: the embed loop stores each frame bit in all
bpp slots of one sample while extraction reads one distinct bit per
slot, so for bitsPerPixel 2 and 3 the body is read from the wrong
samples (the repository's own test_different_bits_per_pixel asserts
equality here and fails). -/
theorem c1_roundtrip_bug :
    embed_data (fun x => some x) (List.replicate 60 0) [255] 2 true =
      Except.ok [0, 0, 0, 0, 0, 0, 0, 0, 0, 0, 0, 0, 0, 0, 0, 0, 0, 0, 0, 0,
        0, 0, 0, 0, 0, 0, 0, 0, 0, 0, 0, 3, 0, 0, 0, 0, 0, 0, 3, 0,
        3, 3, 3, 3, 3, 3, 3, 3, 0, 0, 0, 0, 0, 0, 0, 0, 0, 0, 0, 0] ∧
    extract_data (fun x => some x)
      [0, 0, 0, 0, 0, 0, 0, 0, 0, 0, 0, 0, 0, 0, 0, 0, 0, 0, 0, 0,
        0, 0, 0, 0, 0, 0, 0, 0, 0, 0, 0, 3, 0, 0, 0, 0, 0, 0, 3, 0,
        3, 3, 3, 3, 3, 3, 3, 3, 0, 0, 0, 0, 0, 0, 0, 0, 0, 0, 0, 0] =
      Except.ok [0] ∧
    1 ≤ (calculate_capacity (List.replicate 60 0) 3 2).available_bytes ∧
    ([0] : List Nat) ≠ [255] :=
  ⟨rfl, rfl, by decide, by decide⟩

theorem chunks8_length_aux : ∀ (n : Nat) (l : List Nat), l.length ≤ n →
    (chunks8 l).length = (l.length + 7) / 8 := by
  intro n
  induction n with
  | zero =>
    intro l hl
    have h : l = [] := List.length_eq_zero.mp (Nat.le_zero.mp hl)
    subst h
    rfl
  | succ n ih =>
    intro l hl
    rcases l with _ | ⟨a0, l⟩
    · rfl
    rcases l with _ | ⟨a1, l⟩
    · norm_num [chunks8]
    rcases l with _ | ⟨a2, l⟩
    · norm_num [chunks8]
    rcases l with _ | ⟨a3, l⟩
    · norm_num [chunks8]
    rcases l with _ | ⟨a4, l⟩
    · norm_num [chunks8]
    rcases l with _ | ⟨a5, l⟩
    · norm_num [chunks8]
    rcases l with _ | ⟨a6, l⟩
    · norm_num [chunks8]
    rcases l with _ | ⟨a7, l⟩
    · norm_num [chunks8]
    have hr : l.length ≤ n := by
      simp only [List.length_cons] at hl
      omega
    have h1 := ih l hr
    rw [show chunks8 (a0 :: a1 :: a2 :: a3 :: a4 :: a5 :: a6 :: a7 :: l) =
      [a0, a1, a2, a3, a4, a5, a6, a7] :: chunks8 l from rfl]
    simp only [List.length_cons, h1]
    omega

theorem chunks8_length (l : List Nat) :
    (chunks8 l).length = (l.length + 7) / 8 :=
  chunks8_length_aux l.length l le_rfl

theorem bitsToBytes_length (bits : List Nat) :
    (bitsToBytes bits).length = (bits.length + 7) / 8 := by
  unfold bitsToBytes
  split
  · next h => rw [h]; rfl
  · rw [List.length_map, chunks8_length]
    unfold padBits
    rw [List.length_append, List.length_replicate]
    omega

theorem headerBytesOf_length (flat : List Nat) :
    (headerBytesOf flat).length = 5 := by
  show (bitsToBytes (lsb40 flat)).length = 5
  rw [bitsToBytes_length]
  simp [lsb40]

theorem compressionStage_flag (compress : List Nat → Option (List Nat))
    (useC : Bool) (secret : List Nat) :
    (compressionStage compress useC secret).2 = 0 ∨
      (compressionStage compress useC secret).2 = 1 := by
  unfold compressionStage
  split
  · split
    · split
      · right; rfl
      · left; rfl
    · left; rfl
  · left; rfl

theorem compressionStage_false (compress : List Nat → Option (List Nat))
    (secret : List Nat) :
    compressionStage compress false secret = (secret, 0) := by
  unfold compressionStage
  simp

theorem beDecode32_toBE4 (n : Nat) (h : n < 2 ^ 32) :
    beDecode32 (toBE4 n) = n := by
  unfold beDecode32 toBE4
  norm_num
  omega

theorem dataToHide_length (body : List Nat) (flag bpp : Nat) :
    (dataToHide body flag bpp).length = body.length + 5 := by
  simp [dataToHide, toBE4]
  try omega

/-- Claim C5 counterexample: calculate_capacity runs no bitsPerPixel
validation at all; with bitsPerPixel = 4 it returns an ordinary report
computed with the raw value rather than failing with InvalidParameter
(the only error path in the source is the decode try/except, which the
arithmetic can never trigger). -/
theorem c5_no_validation_counterexample :
    calculate_capacity (List.replicate 100 0) 3 4 =
      { pixels := 100, channels := 3, bits_per_pixel := 4,
        available_bytes := 45, available_bits := 360, header_bits := 40 } := by
  decide

/-- Claim C5 amended: the public capacity calculator accepts every
bitsPerPixel value, even outside the set 1..3: it neither fails nor
clamps, and simply computes the report with the raw value. -/
theorem c5_amended_no_validation (flat : List Nat) (channels bpp : Nat) :
    (calculate_capacity flat channels bpp).bits_per_pixel = bpp ∧
    (calculate_capacity flat channels bpp).available_bits =
      (flat.length * bpp : Int) - 40 ∧
    (calculate_capacity flat channels bpp).header_bits = 40 :=
  ⟨rfl, rfl, rfl⟩

/-- Claim C10: for a buffer of pixels * channels samples the capacity
report's available_bytes equals max(0, (pixels * channels * bpp - 40)
floor-div 8) - never negative even when the image cannot hold the
40-bit header - while available_bits is the unclamped (possibly
negative) pixels * channels * bpp - 40. -/
theorem c10_available_bytes_clamped (flat : List Nat) (px ch bpp : Nat)
    (h : flat.length = px * ch) :
    ((calculate_capacity flat ch bpp).available_bytes : Int) =
      max 0 ((((px * ch * bpp : Nat) : Int) - 40).fdiv 8) ∧
    (calculate_capacity flat ch bpp).available_bits =
      ((px * ch * bpp : Nat) : Int) - 40 := by
  have key : ((flat.length * bpp : Int)) = ((px * ch * bpp : Nat) : Int) := by
    rw [h]; push_cast; ring
  constructor
  · show ((((flat.length * bpp : Int)) - 40).fdiv 8).toNat =
      max 0 ((((px * ch * bpp : Nat) : Int) - 40).fdiv 8)
    rw [key, Int.toNat_eq_max, max_comm]
  · show ((flat.length * bpp : Int)) - 40 = ((px * ch * bpp : Nat) : Int) - 40
    rw [key]

/-- Witness for C10 on a 2 x 1 pixel, 3 channel image (6 samples),
where 6 * 1 - 40 is negative: available_bytes clamps to 0. -/
theorem c10_available_bytes_clamped_witness :
    (List.replicate 6 0 : List Nat).length = 2 * 3 ∧
    (((calculate_capacity (List.replicate 6 0) 3 1).available_bytes : Int) =
      max 0 ((((2 * 3 * 1 : Nat) : Int) - 40).fdiv 8) ∧
    (calculate_capacity (List.replicate 6 0) 3 1).available_bits =
      ((2 * 3 * 1 : Nat) : Int) - 40) :=
  ⟨rfl, c10_available_bytes_clamped (List.replicate 6 0) 2 3 1 rfl⟩

/-- Claim C7: the frame is the 4-byte big-endian unsigned length of the
(possibly compressed) body, then one metadata byte
(compressed flag much-less-than 7, or-ed with bpp and 7), then the body
itself: the layout holds for every secret, compression outcome and
bitsPerPixel, the length field decodes back to the body length, its
bytes are genuine byte values, and the flag is 0 or 1. -/
theorem c7_frame_format (compress : List Nat → Option (List Nat))
    (useC : Bool) (secret body : List Nat) (flag bpp : Nat)
    (hstage : compressionStage compress useC secret = (body, flag))
    (h32 : body.length < 2 ^ 32) :
    dataToHide body flag bpp =
      toBE4 body.length ++ ((flag <<< 7) ||| (bpp &&& 7)) :: body ∧
    (toBE4 body.length).length = 4 ∧
    beDecode32 (toBE4 body.length) = body.length ∧
    (∀ y ∈ toBE4 body.length, y < 256) ∧
    (flag = 0 ∨ flag = 1) := by
  refine ⟨rfl, rfl, beDecode32_toBE4 _ h32, ?_, ?_⟩
  · intro y hy
    simp [toBE4] at hy
    rcases hy with h1 | h2 | h3 | h4 <;> omega
  · have := compressionStage_flag compress useC secret
    rw [hstage] at this
    exact this

/-- Witness for C7 at secret [7] without compression. -/
theorem c7_frame_format_witness :
    compressionStage (fun x => some x) false [7] = ([7], 0) ∧
    ([7] : List Nat).length < 2 ^ 32 ∧
    (dataToHide [7] 0 2 =
      toBE4 ([7] : List Nat).length ++ ((0 <<< 7) ||| (2 &&& 7)) :: [7] ∧
    (toBE4 ([7] : List Nat).length).length = 4 ∧
    beDecode32 (toBE4 ([7] : List Nat).length) = ([7] : List Nat).length ∧
    (∀ y ∈ toBE4 ([7] : List Nat).length, y < 256) ∧
    ((0 : Nat) = 0 ∨ (0 : Nat) = 1)) :=
  ⟨rfl, by decide,
    c7_frame_format (fun x => some x) false [7] [7] 0 2 rfl (by decide)⟩

/-- Claim C9: whenever the stego buffer has at least the 40 header
samples and the decoded header length exceeds 10,000,000, extraction
stops with the invalid-data-length error and returns no bytes. -/
theorem c9_length_guard (decompress : List Nat → Option (List Nat))
    (flat : List Nat) (h40 : ¬ flat.length < 40)
    (hbig : headerLenOf flat > 10000000) :
    extract_data decompress flat =
      Except.error "Invalid data length in header" := by
  unfold extract_data
  rw [if_neg h40, if_neg (by rw [headerBytesOf_length]; omega), if_pos hbig]

/-- Witness for C9: forty samples of value 1 decode to the header
length 4294967295. -/
theorem c9_length_guard_witness :
    ¬ (List.replicate 40 1 : List Nat).length < 40 ∧
    headerLenOf (List.replicate 40 1) > 10000000 ∧
    extract_data (fun x => some x) (List.replicate 40 1) =
      Except.error "Invalid data length in header" :=
  ⟨by decide, by decide,
    c9_length_guard (fun x => some x) (List.replicate 40 1) (by decide) (by decide)⟩

theorem bits_of_frame_length (s : List Nat) (flag bpp : Nat) :
    ((bytesToBits (dataToHide s flag bpp)).length : Int) = 8 * (s.length + 5) := by
  rw [bytesToBits_length, dataToHide_length]
  push_cast
  ring

theorem capacity_fields (flat : List Nat) (ch bpp : Nat) :
    (calculate_capacity flat ch bpp).available_bits
      = ((flat.length * bpp : Nat) : Int) - 40 ∧
    ((calculate_capacity flat ch bpp).available_bytes : Int)
      = ((((flat.length * bpp : Nat) : Int) - 40) / 8).toNat := by
  constructor
  · show (flat.length : Int) * (bpp : Int) - 40 = _
    push_cast
    ring
  · show ((((flat.length : Int) * (bpp : Int) - 40).fdiv 8).toNat : Int) = _
    rw [Int.fdiv_eq_ediv _ (by norm_num)]
    congr 2

/-- Claim C4 counterexample: a 120-sample zero cover at bitsPerPixel 1
reports available_bytes = 10, yet embedding a 10-byte payload fails
with the capacity error: the report already deducts the 40 header bits
but the embed check counts the 5-byte header again. -/
theorem c4_boundary_counterexample :
    (List.replicate 10 0 : List Nat).length =
      (calculate_capacity (List.replicate 120 0) 3 1).available_bytes ∧
    embed_data (fun x => some x) (List.replicate 120 0) (List.replicate 10 0) 1 false =
      Except.error "Data too large. Available: 10B, Required: 15B" :=
  ⟨by decide, rfl⟩

/-- Claim C4 amended: with compression off, a payload of exactly
available_bytes fails with the capacity-exceeded error reporting
available versus required byte counts (the required count includes the
5-byte header, which the capacity report has already deducted once),
a payload of available_bytes + 1 fails the same way, and the boundary
actually sits at available_bytes - 5: such a payload embeds
successfully. -/
theorem c4_amended_capacity_boundary (compress : List Nat → Option (List Nat))
    (flat s1 s2 s3 : List Nat) (bpp : Nat)
    (hbpp : bpp = 1 ∨ bpp = 2 ∨ bpp = 3)
    (h1 : s1.length = (calculate_capacity flat 3 bpp).available_bytes)
    (h2 : s2.length = (calculate_capacity flat 3 bpp).available_bytes + 1)
    (h3 : s3.length + 5 = (calculate_capacity flat 3 bpp).available_bytes)
    (hlt : (calculate_capacity flat 3 bpp).available_bytes < 2 ^ 32 - 1) :
    embed_data compress flat s1 bpp false =
      Except.error ("Data too large. Available: " ++
        toString (calculate_capacity flat 3 bpp).available_bytes ++
        "B, Required: " ++ toString (s1.length + 5) ++ "B") ∧
    embed_data compress flat s2 bpp false =
      Except.error ("Data too large. Available: " ++
        toString (calculate_capacity flat 3 bpp).available_bytes ++
        "B, Required: " ++ toString (s2.length + 5) ++ "B") ∧
    (∃ out, embed_data compress flat s3 bpp false = Except.ok out) := by
  obtain ⟨e1, e2⟩ := capacity_fields flat 3 bpp
  refine ⟨?_, ?_, ?_⟩
  · unfold embed_data
    rw [if_neg (not_not_intro hbpp)]
    simp only [compressionStage_false]
    rw [if_pos (show s1.length < 2 ^ 32 by omega)]
    rw [if_pos (show ((bytesToBits (dataToHide s1 0 bpp)).length : Int) >
        (calculate_capacity flat 3 bpp).available_bits by
      rw [bits_of_frame_length, e1]
      omega)]
    rw [dataToHide_length]
  · unfold embed_data
    rw [if_neg (not_not_intro hbpp)]
    simp only [compressionStage_false]
    rw [if_pos (show s2.length < 2 ^ 32 by omega)]
    rw [if_pos (show ((bytesToBits (dataToHide s2 0 bpp)).length : Int) >
        (calculate_capacity flat 3 bpp).available_bits by
      rw [bits_of_frame_length, e1]
      omega)]
    rw [dataToHide_length]
  · unfold embed_data
    rw [if_neg (not_not_intro hbpp)]
    simp only [compressionStage_false]
    rw [if_pos (show s3.length < 2 ^ 32 by omega)]
    rw [if_neg (show ¬ ((bytesToBits (dataToHide s3 0 bpp)).length : Int) >
        (calculate_capacity flat 3 bpp).available_bits by
      rw [bits_of_frame_length, e1]
      omega)]
    exact ⟨_, rfl⟩

/-- Witness for the amended C4 on the 120-sample zero cover at
bitsPerPixel 1 (available_bytes = 10): payloads of 10 and 11 bytes
fail, a payload of 5 bytes succeeds. -/
theorem c4_amended_capacity_boundary_witness :
    (List.replicate 10 0 : List Nat).length =
      (calculate_capacity (List.replicate 120 0) 3 1).available_bytes ∧
    (List.replicate 11 0 : List Nat).length =
      (calculate_capacity (List.replicate 120 0) 3 1).available_bytes + 1 ∧
    (List.replicate 5 0 : List Nat).length + 5 =
      (calculate_capacity (List.replicate 120 0) 3 1).available_bytes ∧
    (calculate_capacity (List.replicate 120 0) 3 1).available_bytes < 2 ^ 32 - 1 ∧
    (embed_data (fun x => some x) (List.replicate 120 0) (List.replicate 10 0) 1 false =
      Except.error ("Data too large. Available: " ++
        toString (calculate_capacity (List.replicate 120 0) 3 1).available_bytes ++
        "B, Required: " ++ toString ((List.replicate 10 0 : List Nat).length + 5) ++ "B") ∧
    embed_data (fun x => some x) (List.replicate 120 0) (List.replicate 11 0) 1 false =
      Except.error ("Data too large. Available: " ++
        toString (calculate_capacity (List.replicate 120 0) 3 1).available_bytes ++
        "B, Required: " ++ toString ((List.replicate 11 0 : List Nat).length + 5) ++ "B") ∧
    (∃ out, embed_data (fun x => some x) (List.replicate 120 0) (List.replicate 5 0) 1 false =
      Except.ok out)) :=
  ⟨by decide, by decide, by decide, by decide,
    c4_amended_capacity_boundary (fun x => some x) (List.replicate 120 0)
      (List.replicate 10 0) (List.replicate 11 0) (List.replicate 5 0) 1 (Or.inl rfl)
      (by decide) (by decide) (by decide) (by decide)⟩

theorem filterMap_if_all (l : List Nat) (p : Nat → Prop) [DecidablePred p]
    (f : Nat → Nat) (h : ∀ a ∈ l, p a) :
    (l.filterMap fun a => if p a then some (f a) else none) = l.map f := by
  induction l with
  | nil => rfl
  | cons a t ih =>
    have ha : p a := h a (List.mem_cons_self a t)
    have ht := ih (fun x hx => h x (List.mem_cons_of_mem a hx))
    simp [List.filterMap_cons, ha, ht]

theorem headerBppOf_pos (flat : List Nat) : 0 < headerBppOf flat := by
  unfold headerBppOf
  split
  · next h => rcases h with h | h | h <;> omega
  · omega

theorem bodyBits_eq_map (flat : List Nat) (bpp stop : Nat) (hbpp : 0 < bpp)
    (hstop : stop ≤ flat.length * bpp) :
    bodyBits flat bpp stop = (List.range' 40 (stop - 40)).map
      (fun i => (flat.getD (i / bpp) 0 >>> (i % bpp)) &&& 1) := by
  unfold bodyBits
  apply filterMap_if_all
  intro i hi
  obtain ⟨k, hk, rfl⟩ := List.mem_range'.mp hi
  rw [Nat.div_lt_iff_lt_mul hbpp]
  calc 40 + 1 * k < stop := by omega
    _ ≤ flat.length * bpp := hstop

/-- Claim C3 counterexample: two 60-sample stego buffers that agree
everywhere except inside the header's metadata byte (sample indices 38
and 39, where the stored bitsPerPixel is 2 respectively 1) extract to
different payloads, [0] versus [255]. The stored field therefore
governs body addressing - it is not informational - and extract_data
has no bitsPerPixel parameter at all for a caller to supply. -/
theorem c3_caller_bpp_counterexample :
    extract_data (fun x => some x)
      [0, 0, 0, 0, 0, 0, 0, 0, 0, 0, 0, 0, 0, 0, 0, 0, 0, 0, 0, 0,
       0, 0, 0, 0, 0, 0, 0, 0, 0, 0, 0, 1, 0, 0, 0, 0, 0, 0, 0, 1,
       1, 1, 1, 1, 1, 1, 1, 1, 0, 0, 0, 0, 0, 0, 0, 0, 0, 0, 0, 0] =
      Except.ok [255] ∧
    extract_data (fun x => some x)
      [0, 0, 0, 0, 0, 0, 0, 0, 0, 0, 0, 0, 0, 0, 0, 0, 0, 0, 0, 0,
       0, 0, 0, 0, 0, 0, 0, 0, 0, 0, 0, 1, 0, 0, 0, 0, 0, 0, 1, 0,
       1, 1, 1, 1, 1, 1, 1, 1, 0, 0, 0, 0, 0, 0, 0, 0, 0, 0, 0, 0] =
      Except.ok [0] ∧
    ([0, 0, 0, 0, 0, 0, 0, 0, 0, 0, 0, 0, 0, 0, 0, 0, 0, 0, 0, 0,
      0, 0, 0, 0, 0, 0, 0, 0, 0, 0, 0, 1, 0, 0, 0, 0, 0, 0, 0, 1,
      1, 1, 1, 1, 1, 1, 1, 1, 0, 0, 0, 0, 0, 0, 0, 0, 0, 0, 0, 0] : List Nat).take 38 =
    ([0, 0, 0, 0, 0, 0, 0, 0, 0, 0, 0, 0, 0, 0, 0, 0, 0, 0, 0, 0,
      0, 0, 0, 0, 0, 0, 0, 0, 0, 0, 0, 1, 0, 0, 0, 0, 0, 0, 1, 0,
      1, 1, 1, 1, 1, 1, 1, 1, 0, 0, 0, 0, 0, 0, 0, 0, 0, 0, 0, 0] : List Nat).take 38 ∧
    ([0, 0, 0, 0, 0, 0, 0, 0, 0, 0, 0, 0, 0, 0, 0, 0, 0, 0, 0, 0,
      0, 0, 0, 0, 0, 0, 0, 0, 0, 0, 0, 1, 0, 0, 0, 0, 0, 0, 0, 1,
      1, 1, 1, 1, 1, 1, 1, 1, 0, 0, 0, 0, 0, 0, 0, 0, 0, 0, 0, 0] : List Nat).drop 40 =
    ([0, 0, 0, 0, 0, 0, 0, 0, 0, 0, 0, 0, 0, 0, 0, 0, 0, 0, 0, 0,
      0, 0, 0, 0, 0, 0, 0, 0, 0, 0, 0, 1, 0, 0, 0, 0, 0, 0, 1, 0,
      1, 1, 1, 1, 1, 1, 1, 1, 0, 0, 0, 0, 0, 0, 0, 0, 0, 0, 0, 0] : List Nat).drop 40 ∧
    ([255] : List Nat) ≠ [0] :=
  ⟨rfl, rfl, rfl, rfl, by decide⟩

/-- Claim C3 amended: the extract entry point takes no bitsPerPixel
argument. On a parsable in-capacity uncompressed stego buffer it
returns the body read with the bitsPerPixel stored in the frame header
(after the fallback to 1), checking totalBitsNeeded = 40 +
dataLength * 8 against capacity addressed at that header value, and
body bit j is read from sample (40 + j) / headerBpp at slot
(40 + j) mod headerBpp. -/
theorem c3_amended_header_bpp (decompress : List Nat → Option (List Nat))
    (flat : List Nat)
    (h40 : ¬ flat.length < 40)
    (hlen : ¬ headerLenOf flat > 10000000)
    (hcap : ¬ 40 + headerLenOf flat * 8 > flat.length * headerBppOf flat)
    (hflag : ¬ flagOf flat = 1) :
    extract_data decompress flat =
      Except.ok ((bitsToBytes (bodyBits flat (headerBppOf flat)
        (min (40 + headerLenOf flat * 8) (flat.length * headerBppOf flat)))).take
        (headerLenOf flat)) ∧
    ∀ j, j < headerLenOf flat * 8 →
      (bodyBits flat (headerBppOf flat)
        (min (40 + headerLenOf flat * 8) (flat.length * headerBppOf flat))).getD j 0
        = (flat.getD ((40 + j) / headerBppOf flat) 0 >>>
            ((40 + j) % headerBppOf flat)) &&& 1 := by
  have hmin : min (40 + headerLenOf flat * 8) (flat.length * headerBppOf flat)
      = 40 + headerLenOf flat * 8 := Nat.min_eq_left (by omega)
  constructor
  · unfold extract_data
    rw [if_neg h40, if_neg (by rw [headerBytesOf_length]; omega), if_neg hlen,
      if_neg hcap, if_neg hflag]
  · intro j hj
    rw [bodyBits_eq_map _ _ _ (headerBppOf_pos flat) (Nat.min_le_right _ _), hmin]
    have hlt : j < (List.map
        (fun i => flat.getD (i / headerBppOf flat) 0 >>> (i % headerBppOf flat) &&& 1)
        (List.range' 40 (40 + headerLenOf flat * 8 - 40))).length := by
      rw [List.length_map, List.length_range']
      omega
    rw [List.getD_eq_getElem?_getD, List.getElem?_eq_getElem hlt]
    simp [List.getElem_range']

/-- Witness for the amended C3 on forty zero samples: the header parses
with dataLength 0 and stored bitsPerPixel 0, which falls back to 1, and
extraction returns the (empty) body. -/
theorem c3_amended_header_bpp_witness :
    (¬ (List.replicate 40 0 : List Nat).length < 40) ∧
    (¬ headerLenOf (List.replicate 40 0) > 10000000) ∧
    (¬ 40 + headerLenOf (List.replicate 40 0) * 8 >
      (List.replicate 40 0 : List Nat).length * headerBppOf (List.replicate 40 0)) ∧
    (¬ flagOf (List.replicate 40 0) = 1) ∧
    (extract_data (fun x => some x) (List.replicate 40 0) =
      Except.ok ((bitsToBytes (bodyBits (List.replicate 40 0)
        (headerBppOf (List.replicate 40 0))
        (min (40 + headerLenOf (List.replicate 40 0) * 8)
          ((List.replicate 40 0 : List Nat).length *
            headerBppOf (List.replicate 40 0))))).take
        (headerLenOf (List.replicate 40 0))) ∧
    ∀ j, j < headerLenOf (List.replicate 40 0) * 8 →
      (bodyBits (List.replicate 40 0) (headerBppOf (List.replicate 40 0))
        (min (40 + headerLenOf (List.replicate 40 0) * 8)
          ((List.replicate 40 0 : List Nat).length *
            headerBppOf (List.replicate 40 0)))).getD j 0
        = ((List.replicate 40 0 : List Nat).getD
            ((40 + j) / headerBppOf (List.replicate 40 0)) 0 >>>
            ((40 + j) % headerBppOf (List.replicate 40 0))) &&& 1) :=
  ⟨by decide, by decide, by decide, by decide,
    c3_amended_header_bpp (fun x => some x) (List.replicate 40 0)
      (by decide) (by decide) (by decide) (by decide)⟩
